import Mathlib

/-!
Verification development for the TrueTrend licensing gateway
(`/api/gateway.js`, with the sibling `/api/stripe-webhook.js`,
`/api/make-download-token.js` and `/api/installer.js` variants).

The embedding models the in-memory store path of the gateway
(`MEM_TOKENS` / `MEM_LICENSES` / `MEM_INDEX`): each store is a total
function from keys to optional records.  The string keys
`license:${customerId}:${productId}` are modelled as pairs
`(customerId, productId)`; the `licenseIndex:${licenseKey}` and
`token:${token}` namespaces become the separate `index` and `tokens`
fields of `Store`.  Epoch-millisecond timestamps are `Nat`.  The
nondeterministic inputs of the JavaScript code (`Date.now()`,
`randomKey()`, `crypto.randomBytes`) are passed in as explicit
arguments.  Absent JavaScript hash fields read back as falsy values;
the record `emptyRec` (all fields `""` / `0`) plays the role of the
empty hash `{}` that `kvHSet` merges into.
-/

namespace TrueTrend

/-- License record, the fields written by `ensureLicense` in
`/api/gateway.js` (lines 137–147). -/
structure LicenseRecord where
  licenseKey : String
  customerId : String
  productId : String
  email : String
  status : String
  currentPeriodEnd : Nat
  boundDevice : String
  deviceLimit : Nat
  updatedAt : Nat
deriving Repr, DecidableEq

/-- License index entry, value stored at `licenseIndex:${licenseKey}`. -/
structure IndexEntry where
  customerId : String
  productId : String
deriving Repr, DecidableEq

/-- Token record `{ session_id, exp }` stored at `token:${token}`. -/
structure TokenRec where
  session_id : String
  exp : Nat
deriving Repr, DecidableEq

/-- The shared key-value store: licenses keyed by
`(customerId, productId)`, the license index keyed by license key and
the token store keyed by token string. -/
structure Store where
  licenses : String × String → Option LicenseRecord
  index : String → Option IndexEntry
  tokens : String → Option TokenRec

/-- The store before any request: every lookup misses. -/
def emptyStore : Store := ⟨fun _ => none, fun _ => none, fun _ => none⟩

/-- The empty JavaScript hash `{}` (all fields read back falsy). -/
def emptyRec : LicenseRecord :=
  ⟨"", "", "", "", "", 0, "", 0, 0⟩

/-- JavaScript `a || b` on numbers (`0` is falsy). -/
def jsOr (a b : Nat) : Nat := if a = 0 then b else a

/-- JavaScript `a || b` on strings (`""` is falsy). -/
def jsOrStr (a b : String) : String := if a = "" then b else a

/-- `GOOD_STATUSES = new Set(["active", "trialing"])` membership test. -/
def GOOD_STATUSES (s : String) : Bool := s == "active" || s == "trialing"

/-- The five-minute grace window `5 * 60 * 1000` used by `actionVerify`. -/
def GRACE_MS : Nat := 5 * 60 * 1000

/-- Token lifetime `30 * 60 * 1000` used by every token-minting site. -/
def TOKEN_TTL_MS : Nat := 30 * 60 * 1000

/-- `crypto.randomBytes(24)`: number of random bytes in a download token. -/
def TOKEN_RANDOM_BYTES : Nat := 24

/-- `randomKey("LIC")`: `` `LIC-${r1}-${r2}`.toUpperCase() `` with the two
`Math.random().toString(36).slice(2,10)` draws passed in explicitly. -/
def randomKey (r1 r2 : String) : String :=
  ("LIC" ++ "-" ++ r1 ++ "-" ++ r2).toUpper

/-- Overwrite one license slot (`MEM_LICENSES.set`). -/
def setLicense (σ : Store) (k : String × String) (r : LicenseRecord) : Store :=
  { σ with licenses := fun k2 => if k2 = k then some r else σ.licenses k2 }

/-- Overwrite one index slot (`MEM_INDEX.set`). -/
def setIdx (σ : Store) (k : String) (e : IndexEntry) : Store :=
  { σ with index := fun k2 => if k2 = k then some e else σ.index k2 }

/-- Overwrite one token slot (`MEM_TOKENS.set`). -/
def setToken (σ : Store) (t : String) (r : TokenRec) : Store :=
  { σ with tokens := fun t2 => if t2 = t then some r else σ.tokens t2 }

/-- Delete one token slot (`MEM_TOKENS.delete`). -/
def delToken (σ : Store) (t : String) : Store :=
  { σ with tokens := fun t2 => if t2 = t then none else σ.tokens t2 }

/-- `tokenSet(token, rec)` from `/api/gateway.js`. -/
def tokenSet (t : String) (r : TokenRec) (σ : Store) : Store :=
  setToken σ t r

/-- `tokenConsume(token)` (gateway lines 97–110) / `consumeToken` in
`/api/make-download-token.js`: read, expiry-check (`Date.now() > rec.exp`
is not-found plus cleanup delete), then delete and return. -/
def tokenConsume (t : String) (now : Nat) (σ : Store) :
    Option TokenRec × Store :=
  match σ.tokens t with
  | none => (none, σ)
  | some rec =>
    if rec.exp < now then (none, delToken σ t)
    else (some rec, delToken σ t)

/-- Argument bundle of `ensureLicense`, with the nondeterministic inputs
(`randomKey("LIC")` result and `Date.now()`) made explicit. -/
structure EnsureArgs where
  customerId : String
  email : String
  productId : String
  status : String
  currentPeriodEnd : Nat
  freshKey : String
  now : Nat
deriving Repr, DecidableEq

/-- The record written on the creation path of `ensureLicense`. -/
def createdRec (a : EnsureArgs) : LicenseRecord :=
  { licenseKey := a.freshKey
    customerId := a.customerId
    productId := a.productId
    email := jsOrStr a.email ""
    status := a.status
    currentPeriodEnd := jsOr a.currentPeriodEnd 0
    boundDevice := ""
    deviceLimit := 1
    updatedAt := a.now }

/-- The merge applied on the update path of `ensureLicense`. -/
def updatedRec (a : EnsureArgs) (ex : LicenseRecord) : LicenseRecord :=
  { ex with
    status := a.status
    currentPeriodEnd := jsOr a.currentPeriodEnd (jsOr ex.currentPeriodEnd 0)
    updatedAt := a.now }

/-- `ensureLicense` (gateway lines 132–158).  Creation happens when the
record is missing or its `licenseKey` field is falsy
(`!existing || !existing.licenseKey`); it writes the full record and the
index entry and returns `created = true` with the fresh key.  Otherwise
only `status`, `currentPeriodEnd` (with the `|| existing.currentPeriodEnd
|| 0` fallback) and `updatedAt` are merged and the stored key is
returned with `created = false`. -/
def ensureLicense (a : EnsureArgs) (σ : Store) : (Bool × String) × Store :=
  let key := (a.customerId, a.productId)
  let create : (Bool × String) × Store :=
    ((true, a.freshKey), setIdx (setLicense σ key (createdRec a)) a.freshKey
      ⟨a.customerId, a.productId⟩)
  match σ.licenses key with
  | none => create
  | some ex =>
    if ex.licenseKey = "" then create
    else ((false, ex.licenseKey), setLicense σ key (updatedRec a ex))

/-- `getLicenseByKey(licenseKey, productId)` (gateway lines 160–166):
note the record is loaded at `license:${idx.customerId}:${productId}`
with the caller-supplied product id, not the one stored in the index. -/
def getLicenseByKey (licenseKey productId : String) (σ : Store) :
    Option LicenseRecord :=
  match σ.index licenseKey with
  | none => none
  | some idx => σ.licenses (idx.customerId, productId)

/-- The `valid` expression of `actionVerify` (gateway lines 285–287). -/
def entitledCheck (status : String) (currentPeriodEnd now : Nat) : Bool :=
  GOOD_STATUSES status &&
    (currentPeriodEnd == 0 || decide (now ≤ currentPeriodEnd + GRACE_MS))

/-- Outcome of `actionVerify`: 400 missing fields, 403 not-found,
403 device-limit, or the 200 response `{active, status, validUntil}`. -/
inductive VerifyResult where
  | badRequest
  | notFound
  | deviceLimit
  | ok (active : Bool) (status : String) (validUntil : Nat)
deriving Repr, DecidableEq

/-- `actionVerify` (gateway lines 265–298): resolve by key, bind the
device when `boundDevice` is falsy (a merge write at
`license:${lic.customerId}:${productId}`), reject a mismatching device,
otherwise answer with the entitlement bit, the stored status and
`validUntil = Number(currentPeriodEnd) || 0`. -/
def actionVerify (licenseKey deviceId productId : String) (now : Nat)
    (σ : Store) : VerifyResult × Store :=
  if licenseKey = "" ∨ deviceId = "" then (.badRequest, σ)
  else
    match getLicenseByKey licenseKey productId σ with
    | none => (.notFound, σ)
    | some lic =>
      let bound := jsOrStr lic.boundDevice ""
      let answer : VerifyResult :=
        .ok (entitledCheck lic.status lic.currentPeriodEnd now) lic.status
          (jsOr lic.currentPeriodEnd 0)
      if bound = "" then
        let wkey := (lic.customerId, productId)
        let prev := (σ.licenses wkey).getD emptyRec
        (answer,
          setLicense σ wkey { prev with boundDevice := deviceId, updatedAt := now })
      else if bound ≠ deviceId then (.deviceLimit, σ)
      else (answer, σ)

/-- The `customer.subscription.deleted` / `invoice.payment_failed`
branch of the webhook (gateway lines 360–368): set `status` to
`"canceled"` and bump `updatedAt`, only when the record exists. -/
def cancelLicense (customerId productId : String) (now : Nat) (σ : Store) :
    Store :=
  match σ.licenses (customerId, productId) with
  | none => σ
  | some ex =>
    setLicense σ (customerId, productId)
      { ex with status := "canceled", updatedAt := now }

/-- One state-mutating request of the core, with all nondeterministic
inputs explicit. -/
inductive Op where
  | ensure (a : EnsureArgs)
  | verifyOp (licenseKey deviceId productId : String) (now : Nat)
  | cancel (customerId productId : String) (now : Nat)
  | issue (token : String) (r : TokenRec)
  | consume (token : String) (now : Nat)
deriving Repr, DecidableEq

/-- Store effect of one request. -/
def step : Op → Store → Store
  | .ensure a, σ => (ensureLicense a σ).2
  | .verifyOp lk d p n, σ => (actionVerify lk d p n σ).2
  | .cancel c p n, σ => cancelLicense c p n σ
  | .issue t r, σ => tokenSet t r σ
  | .consume t n, σ => (tokenConsume t n σ).2

/-- Environment guarantee on an operation: the fresh key fed to
`ensureLicense` comes from `randomKey("LIC")` and is therefore a
non-empty (`LIC-` prefixed) string. -/
def opOK : Op → Prop
  | .ensure a => a.freshKey ≠ ""
  | _ => True

/-- Store well-formedness: every stored license record sits at the key
built from its own `customerId` and `productId` and carries a non-empty
`licenseKey`.  Every state reachable from `emptyStore` through `step`
satisfies this. -/
def WF (σ : Store) : Prop :=
  ∀ c p lic, σ.licenses (c, p) = some lic →
    lic.customerId = c ∧ lic.productId = p ∧ lic.licenseKey ≠ ""

/-- Run a sequence of `ensureLicense` calls, collecting the
`{created, licenseKey}` results. -/
def ensureResults : List EnsureArgs → Store → List (Bool × String) × Store
  | [], σ => ([], σ)
  | a :: rest, σ =>
    let r := ensureLicense a σ
    let rs := ensureResults rest r.2
    (r.1 :: rs.1, rs.2)

/-- Number of calls in a sequence of `tokenConsume` requests that return
a record for the given token. -/
def successCount (t : String) : List (String × Nat) → Store → Nat
  | [], _ => 0
  | (t2, now) :: rest, σ =>
    let r := tokenConsume t2 now σ
    (if t2 = t ∧ (r.1).isSome then 1 else 0) + successCount t rest r.2

/-- The fields of a retrieved checkout session that the handlers test. -/
structure StripeSession where
  status : String
  payment_status : String
deriving Repr, DecidableEq

/-- Outcome of `actionMakeToken` / `/api/make-download-token.js`. -/
inductive MakeTokenResult where
  | badRequest
  | notPaid
  | minted (token : String)
deriving Repr, DecidableEq

/-- `actionMakeToken` (gateway lines 225–242) and the identical
`/api/make-download-token.js` handler: a token is minted and stored with
`exp = now + 30min` exactly when the session is retrieved and its
`payment_status` is `"paid"`; otherwise 403 `"not paid"` with no write.
`retrieve` stands for `stripe.checkout.sessions.retrieve`, `tok` for the
`crypto.randomBytes(24).toString("hex")` draw. -/
def actionMakeToken (sessionId : String)
    (retrieve : String → Option StripeSession) (tok : String) (now : Nat)
    (σ : Store) : MakeTokenResult × Store :=
  if sessionId = "" then (.badRequest, σ)
  else
    match retrieve sessionId with
    | none => (.notPaid, σ)
    | some s =>
      if s.payment_status ≠ "paid" then (.notPaid, σ)
      else (.minted tok, tokenSet tok ⟨sessionId, now + TOKEN_TTL_MS⟩ σ)

/-- The paid-session predicate as the specification words it:
`payment_status == "paid"` or
(`status == "complete"` and `payment_status == "no_payment_required"`).
(In the source this disjunction appears only in `/api/installer.js`,
which renders a page and never mints a token.) -/
def specPaid (s : StripeSession) : Prop :=
  s.payment_status = "paid" ∨
    (s.status = "complete" ∧ s.payment_status = "no_payment_required")

instance (s : StripeSession) : Decidable (specPaid s) := by
  unfold specPaid; infer_instance

/-- The webhook event fields the gateway handler reads, flattened. -/
structure WebhookEvent where
  eventType : String
  customerId : String
  email : String
  productId : String
  mode : String
  subscriptionPresent : Bool
  subPeriodEnd : Nat
  subStatus : String
  sessionId : String
deriving Repr, DecidableEq

/-- Outcome of a webhook request: 400 on a bad signature, the normal
`{received:true}` 200 response, or an exception escaping the handler
(the request fails with no `{received:true}`). -/
inductive WebhookOutcome where
  | sigError
  | received
  | uncaught (where_ : String)
deriving Repr, DecidableEq

/-- `handleStripeWebhook` of `/api/gateway.js` (lines 301–371).
`sigValid` is the outcome of `stripe.webhooks.constructEvent`;
`resendConfigured` whether `RESEND_API_KEY` is set; `emailFails`
whether `await resend.emails.send(...)` rejects.  That await (line 333)
sits in no try/catch, and the dispatch in the default handler (line
385) happens before its try block, so a rejected email promise escapes
as an uncaught error.  `fk1`/`fk2` are the `randomKey` draw and `tok`
the token draw used on this path. -/
def handleStripeWebhook (sigValid : Bool) (ev : WebhookEvent)
    (resendConfigured emailFails : Bool) (fk tok : String) (now : Nat)
    (σ : Store) : WebhookOutcome × Store :=
  if !sigValid then (.sigError, σ)
  else
    let afterCompleted : Option Store :=
      if ev.eventType = "checkout.session.completed" then
        let productId := jsOrStr ev.productId "truetrend-ai"
        let status := if ev.mode = "subscription" then "trialing" else "active"
        let periodEnd := if ev.subscriptionPresent then ev.subPeriodEnd else 0
        let r := ensureLicense
          ⟨ev.customerId, ev.email, productId, status, periodEnd, fk, now⟩ σ
        if resendConfigured ∧ ev.email ≠ "" then
          let σ2 := tokenSet tok ⟨ev.sessionId, now + TOKEN_TTL_MS⟩ r.2
          if emailFails then none else some σ2
        else some r.2
      else some σ
    match afterCompleted with
    | none =>
      (.uncaught "resend.emails.send",
        tokenSet tok ⟨ev.sessionId, now + TOKEN_TTL_MS⟩
          (ensureLicense
            ⟨ev.customerId, ev.email, jsOrStr ev.productId "truetrend-ai",
              if ev.mode = "subscription" then "trialing" else "active",
              if ev.subscriptionPresent then ev.subPeriodEnd else 0, fk,
              now⟩ σ).2)
    | some σ1 =>
      let σ2 :=
        if ev.eventType = "customer.subscription.created" ∨
            ev.eventType = "customer.subscription.updated" then
          (ensureLicense
            ⟨ev.customerId, "", jsOrStr ev.productId "truetrend-ai",
              ev.subStatus, ev.subPeriodEnd, fk, now⟩ σ1).2
        else σ1
      let σ3 :=
        if ev.eventType = "customer.subscription.deleted" ∨
            ev.eventType = "invoice.payment_failed" then
          cancelLicense ev.customerId (jsOrStr ev.productId "truetrend-ai")
            now σ2
        else σ2
      (.received, σ3)

/-- The second `/api/stripe-webhook.js` handler variant (the one that
asks `/api/make-download-token` for a token and emails the link): its
whole `checkout.session.completed` body, email send included, sits
inside `try { ... } catch (e) { console.error(...) }`, so an email
failure is logged and swallowed and the handler always answers
`res.json({received:true})` once the signature verified. -/
def handleStripeWebhookTokenEmail (sigValid : Bool) (ev : WebhookEvent)
    (emailFails : Bool) : WebhookOutcome :=
  if !sigValid then .sigError
  else
    let _ := ev
    let _ := emailFails
    .received

/-! Shared helper lemmas. -/

theorem jsOr_zero (a : Nat) : jsOr a 0 = a := by
  by_cases h : a = 0 <;> simp [jsOr, h]

theorem jsOrStr_empty (s : String) : jsOrStr s "" = s := by
  by_cases h : s = "" <;> simp [jsOrStr, h]

theorem setLicense_at (σ : Store) (k : String × String) (r : LicenseRecord) :
    (setLicense σ k r).licenses k = some r := by
  simp [setLicense]

theorem setLicense_ne (σ : Store) (k k2 : String × String) (r : LicenseRecord)
    (h : k2 ≠ k) : (setLicense σ k r).licenses k2 = σ.licenses k2 := by
  simp [setLicense, h]

theorem setIdx_licenses (σ : Store) (k : String) (e : IndexEntry) :
    (setIdx σ k e).licenses = σ.licenses := rfl

theorem setLicense_index (σ : Store) (k : String × String)
    (r : LicenseRecord) : (setLicense σ k r).index = σ.index := rfl

theorem tokenSet_licenses (t : String) (r : TokenRec) (σ : Store) :
    (tokenSet t r σ).licenses = σ.licenses := rfl

theorem tokenConsume_licenses (t : String) (now : Nat) (σ : Store) :
    ((tokenConsume t now σ).2).licenses = σ.licenses := by
  unfold tokenConsume
  cases σ.tokens t with
  | none => rfl
  | some rec => by_cases h : rec.exp < now <;> simp [h, delToken]

theorem ensureLicense_create_none (a : EnsureArgs) (σ : Store)
    (h : σ.licenses (a.customerId, a.productId) = none) :
    ensureLicense a σ =
      ((true, a.freshKey),
        setIdx (setLicense σ (a.customerId, a.productId) (createdRec a))
          a.freshKey ⟨a.customerId, a.productId⟩) := by
  simp [ensureLicense, h]

theorem ensureLicense_create_emptyKey (a : EnsureArgs) (σ : Store)
    (ex : LicenseRecord)
    (h : σ.licenses (a.customerId, a.productId) = some ex)
    (hk : ex.licenseKey = "") :
    ensureLicense a σ =
      ((true, a.freshKey),
        setIdx (setLicense σ (a.customerId, a.productId) (createdRec a))
          a.freshKey ⟨a.customerId, a.productId⟩) := by
  simp [ensureLicense, h, hk]

theorem ensureLicense_update (a : EnsureArgs) (σ : Store) (ex : LicenseRecord)
    (h : σ.licenses (a.customerId, a.productId) = some ex)
    (hk : ex.licenseKey ≠ "") :
    ensureLicense a σ =
      ((false, ex.licenseKey),
        setLicense σ (a.customerId, a.productId) (updatedRec a ex)) := by
  simp [ensureLicense, h, hk]

theorem getLicenseByKey_inv (lk pid : String) (σ : Store)
    (lic : LicenseRecord) (h : getLicenseByKey lk pid σ = some lic) :
    ∃ idx, σ.index lk = some idx ∧
      σ.licenses (idx.customerId, pid) = some lic := by
  unfold getLicenseByKey at h
  cases hi : σ.index lk with
  | none => simp [hi] at h
  | some idx => exact ⟨idx, rfl, by simpa [hi] using h⟩

/-- In a well-formed store a resolved license sits at the key built from
its own customer id and the caller-supplied product id. -/
theorem getLicenseByKey_WF (lk pid : String) (σ : Store)
    (lic : LicenseRecord) (hwf : WF σ)
    (h : getLicenseByKey lk pid σ = some lic) :
    σ.licenses (lic.customerId, pid) = some lic ∧ lic.productId = pid ∧
      lic.licenseKey ≠ "" := by
  obtain ⟨idx, hi, hl⟩ := getLicenseByKey_inv lk pid σ lic h
  obtain ⟨hc, hp, hk⟩ := hwf _ _ _ hl
  exact ⟨hc ▸ hl, hp, hk⟩

/-- Branch characterization of `actionVerify`: unbound record, binding
write. -/
theorem actionVerify_bind (lk dev pid : String) (now : Nat) (σ : Store)
    (lic : LicenseRecord) (hlk : lk ≠ "") (hdev : dev ≠ "")
    (hlic : getLicenseByKey lk pid σ = some lic)
    (hb : lic.boundDevice = "") :
    actionVerify lk dev pid now σ =
      (.ok (entitledCheck lic.status lic.currentPeriodEnd now) lic.status
        (jsOr lic.currentPeriodEnd 0),
        setLicense σ (lic.customerId, pid)
          { (σ.licenses (lic.customerId, pid)).getD emptyRec with
            boundDevice := dev, updatedAt := now }) := by
  simp [actionVerify, hlk, hdev, hlic, jsOrStr, hb]

/-- Branch characterization of `actionVerify`: bound to another device. -/
theorem actionVerify_mismatch (lk dev pid : String) (now : Nat) (σ : Store)
    (lic : LicenseRecord) (hlk : lk ≠ "") (hdev : dev ≠ "")
    (hlic : getLicenseByKey lk pid σ = some lic)
    (hb : lic.boundDevice ≠ "") (hne : lic.boundDevice ≠ dev) :
    actionVerify lk dev pid now σ = (.deviceLimit, σ) := by
  simp [actionVerify, hlk, hdev, hlic, jsOrStr_empty, hb, hne]

/-- Branch characterization of `actionVerify`: bound to this device. -/
theorem actionVerify_match (lk dev pid : String) (now : Nat) (σ : Store)
    (lic : LicenseRecord) (hlk : lk ≠ "") (hdev : dev ≠ "")
    (hlic : getLicenseByKey lk pid σ = some lic)
    (hb : lic.boundDevice = dev) :
    actionVerify lk dev pid now σ =
      (.ok (entitledCheck lic.status lic.currentPeriodEnd now) lic.status
        (jsOr lic.currentPeriodEnd 0), σ) := by
  have hbne : lic.boundDevice ≠ "" := by rw [hb]; exact hdev
  simp [actionVerify, hlk, hdev, hlic, jsOrStr_empty, hb, hbne]

theorem WF_emptyStore : WF emptyStore := by
  intro c p lic h
  simp [emptyStore] at h

theorem setLicense_WF (σ : Store) (k : String × String) (r : LicenseRecord)
    (h : WF σ)
    (hr : r.customerId = k.1 ∧ r.productId = k.2 ∧ r.licenseKey ≠ "") :
    WF (setLicense σ k r) := by
  intro c p lic hl
  simp only [setLicense] at hl
  by_cases hk : ((c, p) : String × String) = k
  · rw [if_pos hk] at hl
    cases hl
    subst hk
    exact hr
  · rw [if_neg hk] at hl
    exact h c p lic hl

theorem ensureLicense_WF (a : EnsureArgs) (σ : Store) (hfk : a.freshKey ≠ "")
    (h : WF σ) : WF (ensureLicense a σ).2 := by
  cases hex : σ.licenses (a.customerId, a.productId) with
  | none =>
    rw [ensureLicense_create_none a σ hex]
    intro c p lic hl
    rw [setIdx_licenses] at hl
    exact setLicense_WF σ _ _ h ⟨rfl, rfl, hfk⟩ c p lic hl
  | some ex =>
    by_cases hk : ex.licenseKey = ""
    · rw [ensureLicense_create_emptyKey a σ ex hex hk]
      intro c p lic hl
      rw [setIdx_licenses] at hl
      exact setLicense_WF σ _ _ h ⟨rfl, rfl, hfk⟩ c p lic hl
    · rw [ensureLicense_update a σ ex hex hk]
      obtain ⟨h1, h2, h3⟩ := h _ _ _ hex
      exact setLicense_WF σ _ _ h ⟨h1, h2, h3⟩

theorem actionVerify_WF (lk dev pid : String) (now : Nat) (σ : Store)
    (h : WF σ) : WF (actionVerify lk dev pid now σ).2 := by
  by_cases hbad : lk = "" ∨ dev = ""
  · simpa [actionVerify, hbad] using h
  · push_neg at hbad
    obtain ⟨hlk, hdev⟩ := hbad
    cases hlic : getLicenseByKey lk pid σ with
    | none => simpa [actionVerify, hlk, hdev, hlic] using h
    | some lic =>
      by_cases hb : lic.boundDevice = ""
      · rw [actionVerify_bind lk dev pid now σ lic hlk hdev hlic hb]
        obtain ⟨hl, hp, hk⟩ := getLicenseByKey_WF lk pid σ lic h hlic
        rw [hl]
        exact setLicense_WF σ _ _ h ⟨rfl, hp, hk⟩
      · by_cases hbd : lic.boundDevice = dev
        · rw [actionVerify_match lk dev pid now σ lic hlk hdev hlic hbd]
          exact h
        · rw [actionVerify_mismatch lk dev pid now σ lic hlk hdev hlic hb hbd]
          exact h

theorem cancelLicense_WF (c p : String) (now : Nat) (σ : Store)
    (h : WF σ) : WF (cancelLicense c p now σ) := by
  unfold cancelLicense
  cases hex : σ.licenses (c, p) with
  | none => exact h
  | some ex =>
    obtain ⟨h1, h2, h3⟩ := h _ _ _ hex
    exact setLicense_WF σ _ _ h ⟨h1, h2, h3⟩

/-- Every request of the core preserves store well-formedness. -/
theorem step_WF (op : Op) (σ : Store) (hok : opOK op) (h : WF σ) :
    WF (step op σ) := by
  cases op with
  | ensure a => exact ensureLicense_WF a σ hok h
  | verifyOp lk d p n => exact actionVerify_WF lk d p n σ h
  | cancel c p n => exact cancelLicense_WF c p n σ h
  | issue t r => exact h
  | consume t n =>
    intro c p lic hl
    rw [show (step (.consume t n) σ).licenses = σ.licenses from
      tokenConsume_licenses t n σ] at hl
    exact h c p lic hl

/-- No request of the core changes a non-empty `boundDevice`. -/
theorem step_preserves_boundDevice (op : Op) (σ : Store) (hok : opOK op)
    (hwf : WF σ) (c p : String) (lic : LicenseRecord)
    (h : σ.licenses (c, p) = some lic) (hb : lic.boundDevice ≠ "") :
    ∃ lic2, (step op σ).licenses (c, p) = some lic2 ∧
      lic2.boundDevice = lic.boundDevice := by
  cases op with
  | ensure a =>
    by_cases hkey : ((c, p) : String × String) = (a.customerId, a.productId)
    · have hat : σ.licenses (a.customerId, a.productId) = some lic := by
        rw [← hkey]; exact h
      have hk : lic.licenseKey ≠ "" := (hwf c p lic h).2.2
      refine ⟨updatedRec a lic, ?_, rfl⟩
      show ((ensureLicense a σ).2).licenses (c, p) = _
      rw [ensureLicense_update a σ lic hat hk, hkey]
      exact setLicense_at _ _ _
    · cases hex : σ.licenses (a.customerId, a.productId) with
      | none =>
        refine ⟨lic, ?_, rfl⟩
        show ((ensureLicense a σ).2).licenses (c, p) = _
        rw [ensureLicense_create_none a σ hex, setIdx_licenses,
          setLicense_ne _ _ _ _ hkey]
        exact h
      | some ex =>
        by_cases hke : ex.licenseKey = ""
        · refine ⟨lic, ?_, rfl⟩
          show ((ensureLicense a σ).2).licenses (c, p) = _
          rw [ensureLicense_create_emptyKey a σ ex hex hke, setIdx_licenses,
            setLicense_ne _ _ _ _ hkey]
          exact h
        · refine ⟨lic, ?_, rfl⟩
          show ((ensureLicense a σ).2).licenses (c, p) = _
          rw [ensureLicense_update a σ ex hex hke,
            setLicense_ne _ _ _ _ hkey]
          exact h
  | verifyOp lk dev pid now =>
    by_cases hbad : lk = "" ∨ dev = ""
    · exact ⟨lic, by simpa [step, actionVerify, hbad] using h, rfl⟩
    · push_neg at hbad
      obtain ⟨hlk, hdev⟩ := hbad
      cases hlic : getLicenseByKey lk pid σ with
      | none => exact ⟨lic, by simpa [step, actionVerify, hlk, hdev, hlic] using h, rfl⟩
      | some lic2 =>
        by_cases hb2 : lic2.boundDevice = ""
        · obtain ⟨hl2, hp2, hk2⟩ := getLicenseByKey_WF lk pid σ lic2 hwf hlic
          by_cases hkey : ((c, p) : String × String) = (lic2.customerId, pid)
          · exfalso
            have : some lic = some lic2 := by rw [← h, ← hl2, hkey]
            cases this
            exact hb hb2
          · refine ⟨lic, ?_, rfl⟩
            show ((actionVerify lk dev pid now σ).2).licenses (c, p) = _
            rw [actionVerify_bind lk dev pid now σ lic2 hlk hdev hlic hb2]
            rw [setLicense_ne _ _ _ _ hkey]
            exact h
        · by_cases hbd : lic2.boundDevice = dev
          · refine ⟨lic, ?_, rfl⟩
            show ((actionVerify lk dev pid now σ).2).licenses (c, p) = _
            rw [actionVerify_match lk dev pid now σ lic2 hlk hdev hlic hbd]
            exact h
          · refine ⟨lic, ?_, rfl⟩
            show ((actionVerify lk dev pid now σ).2).licenses (c, p) = _
            rw [actionVerify_mismatch lk dev pid now σ lic2 hlk hdev hlic hb2 hbd]
            exact h
  | cancel cc pp n =>
    cases hex : σ.licenses (cc, pp) with
    | none =>
      refine ⟨lic, ?_, rfl⟩
      show (cancelLicense cc pp n σ).licenses (c, p) = _
      simp only [cancelLicense, hex]
      exact h
    | some ex =>
      by_cases hkey : ((c, p) : String × String) = (cc, pp)
      · have heq : some lic = some ex := by rw [← h, hkey, hex]
        cases heq
        refine ⟨{ lic with status := "canceled", updatedAt := n }, ?_, rfl⟩
        show (cancelLicense cc pp n σ).licenses (c, p) = _
        simp only [cancelLicense, hex]
        rw [hkey]
        exact setLicense_at _ _ _
      · refine ⟨lic, ?_, rfl⟩
        show (cancelLicense cc pp n σ).licenses (c, p) = _
        simp only [cancelLicense, hex]
        rw [setLicense_ne _ _ _ _ hkey]
        exact h
  | issue t r => exact ⟨lic, h, rfl⟩
  | consume t n =>
    refine ⟨lic, ?_, rfl⟩
    show ((tokenConsume t n σ).2).licenses (c, p) = _
    rw [tokenConsume_licenses]
    exact h

/-- C1: whenever `actionVerify` reaches the entitlement evaluation (the
record resolves and the device either binds or matches), the response is
`ok` with `active` true iff the status is `active`/`trialing` and
(`currentPeriodEnd = 0` or `now ≤ currentPeriodEnd + 5 min`),
`validUntil` equals the stored `currentPeriodEnd`, and in particular a
period end one millisecond in the past is still active while one six
minutes in the past is not. -/
theorem verify_entitlement (lk dev pid : String) (now : Nat) (σ : Store)
    (lic : LicenseRecord) (hlk : lk ≠ "") (hdev : dev ≠ "")
    (hlic : getLicenseByKey lk pid σ = some lic)
    (hbind : lic.boundDevice = "" ∨ lic.boundDevice = dev) :
    (actionVerify lk dev pid now σ).1 =
        VerifyResult.ok (entitledCheck lic.status lic.currentPeriodEnd now)
          lic.status lic.currentPeriodEnd
    ∧ (entitledCheck lic.status lic.currentPeriodEnd now = true ↔
        ((lic.status = "active" ∨ lic.status = "trialing") ∧
          (lic.currentPeriodEnd = 0 ∨
            now ≤ lic.currentPeriodEnd + 5 * 60 * 1000)))
    ∧ ((lic.status = "active" ∨ lic.status = "trialing") →
        entitledCheck lic.status (now - 1) now = true)
    ∧ (6 * 60 * 1000 < now →
        entitledCheck lic.status (now - 6 * 60 * 1000) now = false) := by
  refine ⟨?_, ?_, ?_, ?_⟩
  · rcases hbind with hb | hb
    · simp [actionVerify, hlk, hdev, hlic, jsOrStr, hb, jsOr_zero]
    · by_cases hbe : lic.boundDevice = ""
      · simp [actionVerify, hlk, hdev, hlic, jsOrStr, hbe, jsOr_zero]
      · simp [actionVerify, hlk, hdev, hlic, jsOrStr, hbe, hb, jsOr_zero]
  · simp only [entitledCheck, GOOD_STATUSES, GRACE_MS, Bool.and_eq_true,
      Bool.or_eq_true, beq_iff_eq, decide_eq_true_eq]
  · intro h
    simp only [entitledCheck, GOOD_STATUSES, GRACE_MS, Bool.and_eq_true,
      Bool.or_eq_true, beq_iff_eq, decide_eq_true_eq]
    exact ⟨h, by omega⟩
  · intro h
    simp only [entitledCheck, GRACE_MS]
    have h1 : ((now - 6 * 60 * 1000 : Nat) == 0) = false := by
      simp only [beq_eq_false_iff_ne, ne_eq]
      omega
    have h2 : decide (now ≤ now - 6 * 60 * 1000 + 5 * 60 * 1000) = false := by
      simp only [decide_eq_false_iff_not, not_le]
      omega
    simp [h1, h2]

/-- Witness for `verify_entitlement` at the `currentPeriodEnd = now - 1`
boundary: a freshly created active license with period end `999999`
verifies at `now = 1000000` with `active = true` and
`validUntil = 999999`. -/
theorem verify_entitlement_witness :
    (actionVerify "LIC-A" "dev-1" "p1" 1000000
        (ensureLicense ⟨"cus", "e@x", "p1", "active", 999999, "LIC-A", 5⟩
          emptyStore).2).1 =
      VerifyResult.ok true "active" 999999 := by
  have h := verify_entitlement "LIC-A" "dev-1" "p1" 1000000
    (ensureLicense ⟨"cus", "e@x", "p1", "active", 999999, "LIC-A", 5⟩
      emptyStore).2
    ⟨"LIC-A", "cus", "p1", "e@x", "active", 999999, "", 1, 5⟩
    (by decide) (by decide) (by decide) (Or.inl rfl)
  have h1 := h.1
  have he : entitledCheck "active" 999999 1000000 = true := by decide
  rw [he] at h1
  exact h1

/-- A consume call never creates a token entry. -/
theorem tokenConsume_preserves_absent (σ : Store) (t t2 : String) (now : Nat)
    (h : σ.tokens t = none) :
    ((tokenConsume t2 now σ).2).tokens t = none := by
  unfold tokenConsume
  cases hrec : σ.tokens t2 with
  | none => simpa using h
  | some rec =>
    by_cases hexp : rec.exp < now <;>
      simp [hexp, delToken] <;> intro _ <;> exact h

/-- A successful consume deletes the token. -/
theorem tokenConsume_some_deletes (σ : Store) (t : String) (now : Nat)
    (rec : TokenRec) (h : (tokenConsume t now σ).1 = some rec) :
    ((tokenConsume t now σ).2).tokens t = none := by
  unfold tokenConsume at h ⊢
  cases hrec : σ.tokens t with
  | none => simp [hrec] at h
  | some r =>
    by_cases hexp : r.exp < now <;> simp [hrec, hexp, delToken] at h ⊢

/-- Consuming an absent token misses. -/
theorem tokenConsume_absent (σ : Store) (t : String) (now : Nat)
    (h : σ.tokens t = none) : (tokenConsume t now σ).1 = none := by
  simp [tokenConsume, h]

/-- Once the token is absent, no later consume in the sequence succeeds. -/
theorem successCount_of_absent (t : String) (calls : List (String × Nat))
    (σ : Store) (h : σ.tokens t = none) : successCount t calls σ = 0 := by
  induction calls generalizing σ with
  | nil => rfl
  | cons c rest ih =>
    obtain ⟨t2, now⟩ := c
    unfold successCount
    by_cases ht : t2 = t
    · subst ht
      have h1 : (tokenConsume t2 now σ).1 = none := tokenConsume_absent σ t2 now h
      have h2 : ((tokenConsume t2 now σ).2).tokens t2 = none :=
        tokenConsume_preserves_absent σ t2 t2 now h
      simp [h1, ih _ h2]
    · have h2 : ((tokenConsume t2 now σ).2).tokens t = none :=
        tokenConsume_preserves_absent σ t t2 now h
      simp [ht, ih _ h2]

/-- C2: across any sequence of consume calls, `consume(t)` returns a
record at most once; an absent token misses; a found-but-expired token
misses and is deleted as cleanup; and after a successful consume every
later consume of the same token misses. -/
theorem tokenConsume_at_most_once (σ : Store) (t : String) :
    (∀ calls, successCount t calls σ ≤ 1)
    ∧ (∀ now, σ.tokens t = none → (tokenConsume t now σ).1 = none)
    ∧ (∀ now rec, σ.tokens t = some rec → rec.exp < now →
        (tokenConsume t now σ).1 = none ∧
          ((tokenConsume t now σ).2).tokens t = none)
    ∧ (∀ now rec, (tokenConsume t now σ).1 = some rec →
        ∀ now2, (tokenConsume t now2 ((tokenConsume t now σ).2)).1 = none) := by
  refine ⟨?_, ?_, ?_, ?_⟩
  · intro calls
    induction calls generalizing σ with
    | nil => simp [successCount]
    | cons c rest ih =>
      obtain ⟨t2, now⟩ := c
      unfold successCount
      by_cases ht : t2 = t
      · subst ht
        cases hr : (tokenConsume t2 now σ).1 with
        | none => simpa [hr] using ih ((tokenConsume t2 now σ).2)
        | some rec =>
          have hdel := tokenConsume_some_deletes σ t2 now rec hr
          have hz := successCount_of_absent t2 rest _ hdel
          simp [hr, hz]
      · have := ih ((tokenConsume t2 now σ).2)
        simpa [ht] using this
  · intro now h
    exact tokenConsume_absent σ t now h
  · intro now rec h hexp
    refine ⟨?_, ?_⟩
    · simp [tokenConsume, h, hexp]
    · simp [tokenConsume, h, hexp, delToken]
  · intro now rec h now2
    exact tokenConsume_absent _ t now2 (tokenConsume_some_deletes σ t now rec h)

/-- Witness for `tokenConsume_at_most_once`: issue a token expiring at
100, consume successfully at 50, and the repeat consume at 60 misses. -/
theorem tokenConsume_at_most_once_witness :
    (tokenConsume "tok" 60
        ((tokenConsume "tok" 50
          (tokenSet "tok" ⟨"sess", 100⟩ emptyStore)).2)).1 = none := by
  have h := tokenConsume_at_most_once
    (tokenSet "tok" ⟨"sess", 100⟩ emptyStore) "tok"
  exact h.2.2.2 50 ⟨"sess", 100⟩ (by decide) 60

/-- C3: device binding is sticky.  A first verify on an unbound record
stores the calling device as `boundDevice`; any verify with a different
device against a bound record answers `device_limit` and leaves the
store (hence `boundDevice`) untouched; no operation in scope changes a
non-empty `boundDevice`; and every operation preserves the reachable-
state well-formedness this rests on. -/
theorem device_binding_sticky :
    (∀ (σ : Store) (lk dev pid : String) (now : Nat) (lic : LicenseRecord),
      WF σ → lk ≠ "" → dev ≠ "" →
      getLicenseByKey lk pid σ = some lic → lic.boundDevice = "" →
      ((actionVerify lk dev pid now σ).2).licenses (lic.customerId, pid) =
        some { lic with boundDevice := dev, updatedAt := now })
    ∧ (∀ (σ : Store) (lk devB pid : String) (now : Nat)
        (lic : LicenseRecord),
      WF σ → lk ≠ "" → devB ≠ "" →
      getLicenseByKey lk pid σ = some lic → lic.boundDevice ≠ "" →
      devB ≠ lic.boundDevice →
      actionVerify lk devB pid now σ = (.deviceLimit, σ))
    ∧ (∀ (op : Op) (σ : Store) (c p : String) (lic : LicenseRecord),
      opOK op → WF σ → σ.licenses (c, p) = some lic →
      lic.boundDevice ≠ "" →
      ∃ lic2, (step op σ).licenses (c, p) = some lic2 ∧
        lic2.boundDevice = lic.boundDevice)
    ∧ (∀ (op : Op) (σ : Store), opOK op → WF σ → WF (step op σ)) := by
  refine ⟨?_, ?_, ?_, ?_⟩
  · intro σ lk dev pid now lic hwf hlk hdev hlic hb
    rw [actionVerify_bind lk dev pid now σ lic hlk hdev hlic hb]
    obtain ⟨hl, _, _⟩ := getLicenseByKey_WF lk pid σ lic hwf hlic
    rw [hl]
    exact setLicense_at _ _ _
  · intro σ lk devB pid now lic _ hlk hdev hlic hb hne
    exact actionVerify_mismatch lk devB pid now σ lic hlk hdev hlic hb
      (fun hc => hne hc.symm)
  · intro op σ c p lic hok hwf h hb
    exact step_preserves_boundDevice op σ hok hwf c p lic h hb
  · intro op σ hok hwf
    exact step_WF op σ hok hwf

/-- Witness for `device_binding_sticky`: create a license, bind it to
`dev-A` by a first verify, then a verify from `dev-B` is rejected with
`device_limit` and the store is returned unchanged. -/
theorem device_binding_sticky_witness :
    actionVerify "LIC-A" "dev-B" "p1" 20
        ((actionVerify "LIC-A" "dev-A" "p1" 10
          (ensureLicense ⟨"cus", "", "p1", "active", 0, "LIC-A", 5⟩
            emptyStore).2).2) =
      (.deviceLimit,
        (actionVerify "LIC-A" "dev-A" "p1" 10
          (ensureLicense ⟨"cus", "", "p1", "active", 0, "LIC-A", 5⟩
            emptyStore).2).2) := by
  have hwf1 : WF (ensureLicense ⟨"cus", "", "p1", "active", 0, "LIC-A", 5⟩
      emptyStore).2 :=
    ensureLicense_WF _ _ (by decide) WF_emptyStore
  have hwf2 : WF ((actionVerify "LIC-A" "dev-A" "p1" 10
      (ensureLicense ⟨"cus", "", "p1", "active", 0, "LIC-A", 5⟩
        emptyStore).2).2) :=
    actionVerify_WF _ _ _ _ _ hwf1
  exact device_binding_sticky.2.1 _ "LIC-A" "dev-B" "p1" 20
    ⟨"LIC-A", "cus", "p1", "", "active", 0, "dev-A", 1, 10⟩
    hwf2 (by decide) (by decide) (by decide) (by decide) (by decide)

/-- Once a record with a non-empty key exists for `(c, p)`, every
further `ensureLicense` call for that pair answers
`created = false` with that same key and keeps it stored. -/
theorem ensureResults_existing (c p K : String) (calls : List EnsureArgs)
    (σ : Store) (hK : K ≠ "")
    (hex : ∃ lic, σ.licenses (c, p) = some lic ∧ lic.licenseKey = K)
    (hcalls : ∀ b ∈ calls, b.customerId = c ∧ b.productId = p) :
    (ensureResults calls σ).1 = calls.map (fun _ => (false, K))
    ∧ ∃ lic, ((ensureResults calls σ).2).licenses (c, p) = some lic ∧
        lic.licenseKey = K := by
  induction calls generalizing σ with
  | nil => simpa [ensureResults] using hex
  | cons b rest ih =>
    obtain ⟨lic, hl, hk⟩ := hex
    obtain ⟨hbc, hbp⟩ := hcalls b (List.mem_cons_self b rest)
    have hl2 : σ.licenses (b.customerId, b.productId) = some lic := by
      rw [hbc, hbp]; exact hl
    have hkne : lic.licenseKey ≠ "" := by rw [hk]; exact hK
    have hnext : ∃ lic2,
        ((ensureLicense b σ).2).licenses (c, p) = some lic2 ∧
          lic2.licenseKey = K := by
      refine ⟨updatedRec b lic, ?_, hk⟩
      rw [ensureLicense_update b σ lic hl2 hkne, ← hbc, ← hbp]
      exact setLicense_at _ _ _
    have hres : (ensureLicense b σ).1 = (false, K) := by
      rw [ensureLicense_update b σ lic hl2 hkne, hk]
    obtain ⟨ih1, ih2⟩ := ih ((ensureLicense b σ).2) hnext
      (fun b2 hb2 => hcalls b2 (List.mem_cons_of_mem b hb2))
    refine ⟨?_, ih2⟩
    simp only [ensureResults, List.map_cons]
    rw [hres, ih1]

/-- C4: for a fixed `(customerId, productId)`, the first
`ensureLicense` call on a missing record creates it and returns
`created = true` with the fresh key; every later call of the sequence
(whatever its status, period-end, email or fresh-key draw) returns
`created = false` with the same key, and the stored `licenseKey` never
changes. -/
theorem ensureLicense_idempotent (c p : String) (a : EnsureArgs)
    (rest : List EnsureArgs) (σ : Store)
    (hnone : σ.licenses (c, p) = none)
    (hc : a.customerId = c) (hp : a.productId = p) (hfk : a.freshKey ≠ "")
    (hrest : ∀ b ∈ rest, b.customerId = c ∧ b.productId = p) :
    (ensureResults (a :: rest) σ).1 =
        (true, a.freshKey) :: rest.map (fun _ => (false, a.freshKey))
    ∧ ∃ lic, ((ensureResults (a :: rest) σ).2).licenses (c, p) = some lic ∧
        lic.licenseKey = a.freshKey := by
  have hnone2 : σ.licenses (a.customerId, a.productId) = none := by
    rw [hc, hp]; exact hnone
  have hcreate := ensureLicense_create_none a σ hnone2
  have hnext : ∃ lic2,
      ((ensureLicense a σ).2).licenses (c, p) = some lic2 ∧
        lic2.licenseKey = a.freshKey := by
    refine ⟨createdRec a, ?_, rfl⟩
    rw [hcreate, ← hc, ← hp]
    show ((setIdx _ _ _).licenses) (a.customerId, a.productId) = _
    rw [setIdx_licenses]
    exact setLicense_at _ _ _
  obtain ⟨ih1, ih2⟩ := ensureResults_existing c p a.freshKey rest
    ((ensureLicense a σ).2) hfk hnext hrest
  refine ⟨?_, ih2⟩
  simp only [ensureResults]
  rw [hcreate] at ih1 ⊢
  rw [ih1]

/-- Witness for `ensureLicense_idempotent`: two calls for the same
customer and product answer `created = true` then `created = false`
with the first call's license key. -/
theorem ensureLicense_idempotent_witness :
    (ensureResults [⟨"cus", "", "p1", "active", 0, "LIC-A", 5⟩,
        ⟨"cus", "", "p1", "past_due", 777, "LIC-B", 6⟩] emptyStore).1 =
      [(true, "LIC-A"), (false, "LIC-A")] := by
  have h := ensureLicense_idempotent "cus" "p1"
    ⟨"cus", "", "p1", "active", 0, "LIC-A", 5⟩
    [⟨"cus", "", "p1", "past_due", 777, "LIC-B", 6⟩] emptyStore
    (by decide) rfl rfl (by decide) (by decide)
  exact h.1

theorem setIdx_at (σ : Store) (k : String) (e : IndexEntry) :
    (setIdx σ k e).index k = some e := by
  simp [setIdx]

theorem setIdx_ne (σ : Store) (k k2 : String) (e : IndexEntry)
    (h : k2 ≠ k) : (setIdx σ k e).index k2 = σ.index k2 := by
  simp [setIdx, h]

/-- The license-key index invariant: an index entry for a (non-empty)
key exists exactly when some license record bears that key. -/
def IdxInv (σ : Store) : Prop :=
  ∀ K : String, K ≠ "" →
    ((σ.index K).isSome = true ↔
      ∃ c p lic, σ.licenses (c, p) = some lic ∧ lic.licenseKey = K)

/-- One `ensureLicense` call (with a `randomKey`-shaped, hence
non-empty, fresh key) preserves the index invariant. -/
theorem ensureLicense_IdxInv (a : EnsureArgs) (σ : Store)
    (hfk : a.freshKey ≠ "") (h : IdxInv σ) :
    IdxInv (ensureLicense a σ).2 := by
  have hcreate : ∀ ko : Option LicenseRecord,
      σ.licenses (a.customerId, a.productId) = ko →
      (ko = none ∨ ∃ ex, ko = some ex ∧ ex.licenseKey = "") →
      ∀ K, K ≠ "" →
      (((setIdx (setLicense σ (a.customerId, a.productId) (createdRec a))
            a.freshKey ⟨a.customerId, a.productId⟩).index K).isSome = true ↔
        ∃ c p lic,
          (setIdx (setLicense σ (a.customerId, a.productId) (createdRec a))
              a.freshKey ⟨a.customerId, a.productId⟩).licenses (c, p) =
            some lic ∧ lic.licenseKey = K) := by
    intro ko hex hguard K hK
    constructor
    · intro hs
      by_cases hKf : K = a.freshKey
      · subst hKf
        refine ⟨a.customerId, a.productId, createdRec a, ?_, rfl⟩
        rw [setIdx_licenses]
        exact setLicense_at _ _ _
      · rw [setIdx_ne _ _ _ _ hKf] at hs
        obtain ⟨c, p, lic, hl, hlk⟩ := (h K hK).1 hs
        by_cases hcp : ((c, p) : String × String) = (a.customerId, a.productId)
        · exfalso
          rw [hcp, hex] at hl
          rcases hguard with hg | ⟨ex, hg, hgk⟩
          · rw [hg] at hl; cases hl
          · rw [hg] at hl
            cases hl
            exact hK (hlk ▸ hgk ▸ rfl)
        · refine ⟨c, p, lic, ?_, hlk⟩
          rw [setIdx_licenses, setLicense_ne _ _ _ _ hcp]
          exact hl
    · rintro ⟨c, p, lic, hl, hlk⟩
      rw [setIdx_licenses] at hl
      by_cases hKf : K = a.freshKey
      · rw [hKf, setIdx_at]
        rfl
      · rw [setIdx_ne _ _ _ _ hKf]
        by_cases hcp : ((c, p) : String × String) = (a.customerId, a.productId)
        · exfalso
          rw [hcp, setLicense_at] at hl
          cases hl
          exact hKf hlk.symm
        · rw [setLicense_ne _ _ _ _ hcp] at hl
          exact (h K hK).2 ⟨c, p, lic, hl, hlk⟩
  cases hex : σ.licenses (a.customerId, a.productId) with
  | none =>
    rw [ensureLicense_create_none a σ hex]
    exact hcreate none hex (Or.inl rfl)
  | some ex =>
    by_cases hke : ex.licenseKey = ""
    · rw [ensureLicense_create_emptyKey a σ ex hex hke]
      exact hcreate (some ex) hex (Or.inr ⟨ex, rfl, hke⟩)
    · rw [ensureLicense_update a σ ex hex hke]
      intro K hK
      rw [setLicense_index]
      constructor
      · intro hs
        obtain ⟨c, p, lic, hl, hlk⟩ := (h K hK).1 hs
        by_cases hcp : ((c, p) : String × String) = (a.customerId, a.productId)
        · refine ⟨a.customerId, a.productId, updatedRec a ex, setLicense_at _ _ _, ?_⟩
          rw [hcp, hex] at hl
          cases hl
          exact hlk
        · exact ⟨c, p, lic, by rw [setLicense_ne _ _ _ _ hcp]; exact hl, hlk⟩
      · rintro ⟨c, p, lic, hl, hlk⟩
        by_cases hcp : ((c, p) : String × String) = (a.customerId, a.productId)
        · rw [hcp, setLicense_at] at hl
          cases hl
          exact (h K hK).2 ⟨a.customerId, a.productId, ex, hex, hlk⟩
        · rw [setLicense_ne _ _ _ _ hcp] at hl
          exact (h K hK).2 ⟨c, p, lic, hl, hlk⟩

/-- C5: a license-index entry exists if and only if a record bearing
that license key exists — the invariant holds in the empty store, every
`ensureLicense` call (single or in sequence) preserves it, and the
creation path writes the record and the index entry together. -/
theorem index_iff_record :
    IdxInv emptyStore
    ∧ (∀ (a : EnsureArgs) (σ : Store), a.freshKey ≠ "" → IdxInv σ →
        IdxInv (ensureLicense a σ).2)
    ∧ (∀ (calls : List EnsureArgs) (σ : Store),
        (∀ a ∈ calls, a.freshKey ≠ "") → IdxInv σ →
        IdxInv (ensureResults calls σ).2)
    ∧ (∀ (a : EnsureArgs) (σ : Store),
        σ.licenses (a.customerId, a.productId) = none →
        ((ensureLicense a σ).2).index a.freshKey =
            some ⟨a.customerId, a.productId⟩ ∧
          ((ensureLicense a σ).2).licenses (a.customerId, a.productId) =
            some (createdRec a)) := by
  refine ⟨?_, ?_, ?_, ?_⟩
  · intro K hK
    simp [emptyStore]
  · intro a σ hfk h
    exact ensureLicense_IdxInv a σ hfk h
  · intro calls
    induction calls with
    | nil => intro σ _ h; simpa [ensureResults] using h
    | cons a rest ih =>
      intro σ hfk h
      simp only [ensureResults]
      exact ih ((ensureLicense a σ).2)
        (fun b hb => hfk b (List.mem_cons_of_mem a hb))
        (ensureLicense_IdxInv a σ (hfk a (List.mem_cons_self a rest)) h)
  · intro a σ hex
    rw [ensureLicense_create_none a σ hex]
    refine ⟨setIdx_at _ _ _, ?_⟩
    rw [setIdx_licenses]
    exact setLicense_at _ _ _

/-- Witness for `index_iff_record`: after two creations from the empty
store the invariant holds for the resulting state. -/
theorem index_iff_record_witness :
    IdxInv ((ensureResults [⟨"cus", "", "p1", "active", 0, "LIC-A", 5⟩,
        ⟨"cus", "", "p2", "trialing", 9, "LIC-B", 6⟩] emptyStore).2) := by
  refine index_iff_record.2.2.1 _ emptyStore (by decide) ?_
  intro K hK
  simp [emptyStore]

theorem setToken_at (σ : Store) (t : String) (r : TokenRec) :
    (setToken σ t r).tokens t = some r := by
  simp [setToken]

/-- Counterexample to C6: the session with `status = "complete"` and
`payment_status = "no_payment_required"` satisfies the claimed paid
predicate, yet the token-issuance path answers 403 `"not paid"` and
stores no token. -/
theorem makeToken_specPaid_counterexample :
    specPaid ⟨"complete", "no_payment_required"⟩
    ∧ actionMakeToken "sess"
        (fun _ => some ⟨"complete", "no_payment_required"⟩) "tok" 0
        emptyStore = (.notPaid, emptyStore)
    ∧ ((actionMakeToken "sess"
        (fun _ => some ⟨"complete", "no_payment_required"⟩) "tok" 0
        emptyStore).2).tokens "tok" = none := by
  refine ⟨Or.inr ⟨rfl, rfl⟩, ?_, rfl⟩
  rfl

/-- C6 (amended): the token-issuance path treats a session as paid —
and mints and stores a token — exactly when the session is retrieved
and its `payment_status` equals `"paid"`; every other retrieved session
(including `status = "complete"` with
`payment_status = "no_payment_required"`) is rejected with 403
`"not paid"` and the store is unchanged. -/
theorem makeToken_paid_iff (sid tok : String)
    (retrieve : String → Option StripeSession) (now : Nat) (σ : Store)
    (hsid : sid ≠ "") :
    (∀ s, retrieve sid = some s → s.payment_status = "paid" →
      actionMakeToken sid retrieve tok now σ =
        (.minted tok, tokenSet tok ⟨sid, now + TOKEN_TTL_MS⟩ σ))
    ∧ (∀ s, retrieve sid = some s → s.payment_status ≠ "paid" →
      actionMakeToken sid retrieve tok now σ = (.notPaid, σ))
    ∧ (retrieve sid = none →
      actionMakeToken sid retrieve tok now σ = (.notPaid, σ)) := by
  refine ⟨?_, ?_, ?_⟩
  · intro s hs hp
    simp [actionMakeToken, hsid, hs, hp]
  · intro s hs hp
    simp [actionMakeToken, hsid, hs, hp]
  · intro hs
    simp [actionMakeToken, hsid, hs]

/-- Witness for `makeToken_paid_iff`: a paid session mints and stores
the token. -/
theorem makeToken_paid_iff_witness :
    actionMakeToken "sess" (fun _ => some ⟨"complete", "paid"⟩) "tok" 7
        emptyStore =
      (.minted "tok", tokenSet "tok" ⟨"sess", 7 + TOKEN_TTL_MS⟩ emptyStore) :=
  (makeToken_paid_iff "sess" "tok" (fun _ => some ⟨"complete", "paid"⟩) 7
    emptyStore (by decide)).1 ⟨"complete", "paid"⟩ rfl rfl

/-- C7: a minted token is stored with `exp = now + 30 min`, the token
carries `24` random bytes — at least 128 bits of randomness — and a
token whose expiry has passed is not returned even by a first consume. -/
theorem token_entropy_and_expiry :
    128 ≤ 8 * TOKEN_RANDOM_BYTES
    ∧ (∀ (sid tok : String) (retrieve : String → Option StripeSession)
        (now : Nat) (σ : Store) (s : StripeSession), sid ≠ "" →
        retrieve sid = some s → s.payment_status = "paid" →
        ((actionMakeToken sid retrieve tok now σ).2).tokens tok =
          some ⟨sid, now + 30 * 60 * 1000⟩)
    ∧ (∀ (t : String) (σ : Store) (rec : TokenRec) (now2 : Nat),
        σ.tokens t = some rec → rec.exp < now2 →
        (tokenConsume t now2 σ).1 = none) := by
  refine ⟨by decide, ?_, ?_⟩
  · intro sid tok retrieve now σ s hsid hs hp
    simp [actionMakeToken, hsid, hs, hp, tokenSet, setToken, TOKEN_TTL_MS]
  · intro t σ rec now2 h hexp
    simp [tokenConsume, h, hexp]

/-- Witness for `token_entropy_and_expiry`: a token minted at time 0
expires at 1 800 000 and a first consume at 1 800 001 misses. -/
theorem token_entropy_and_expiry_witness :
    (tokenConsume "tok" 1800001
        ((actionMakeToken "sess" (fun _ => some ⟨"complete", "paid"⟩)
          "tok" 0 emptyStore).2)).1 = none := by
  have h := token_entropy_and_expiry
  have hst := h.2.1 "sess" "tok" (fun _ => some ⟨"complete", "paid"⟩) 0
    emptyStore ⟨"complete", "paid"⟩ (by decide) rfl rfl
  exact h.2.2 "tok" _ ⟨"sess", 0 + 30 * 60 * 1000⟩ 1800001 hst (by decide)

/-- C8: when the record already exists (with a real license key), an
`ensureLicense` call only rewrites `status`, `currentPeriodEnd`
(keeping the old value when the new one is zero) and `updatedAt`;
`licenseKey`, `email`, `boundDevice`, `deviceLimit`, `customerId` and
`productId` are untouched, every other store key is untouched, and
`created = false` is returned. -/
theorem ensureLicense_update_frame (a : EnsureArgs) (σ : Store)
    (ex : LicenseRecord)
    (hex : σ.licenses (a.customerId, a.productId) = some ex)
    (hk : ex.licenseKey ≠ "") :
    (ensureLicense a σ).1 = (false, ex.licenseKey)
    ∧ ((ensureLicense a σ).2).licenses (a.customerId, a.productId) =
        some (updatedRec a ex)
    ∧ (updatedRec a ex).licenseKey = ex.licenseKey
    ∧ (updatedRec a ex).email = ex.email
    ∧ (updatedRec a ex).boundDevice = ex.boundDevice
    ∧ (updatedRec a ex).deviceLimit = ex.deviceLimit
    ∧ (updatedRec a ex).customerId = ex.customerId
    ∧ (updatedRec a ex).productId = ex.productId
    ∧ (updatedRec a ex).status = a.status
    ∧ (updatedRec a ex).currentPeriodEnd =
        (if a.currentPeriodEnd = 0 then ex.currentPeriodEnd
          else a.currentPeriodEnd)
    ∧ (updatedRec a ex).updatedAt = a.now
    ∧ (∀ k2, k2 ≠ ((a.customerId, a.productId) : String × String) →
        ((ensureLicense a σ).2).licenses k2 = σ.licenses k2)
    ∧ ((ensureLicense a σ).2).index = σ.index
    ∧ ((ensureLicense a σ).2).tokens = σ.tokens := by
  have hupd := ensureLicense_update a σ ex hex hk
  refine ⟨by rw [hupd], by rw [hupd]; exact setLicense_at _ _ _,
    rfl, rfl, rfl, rfl, rfl, rfl, rfl, ?_, rfl, ?_, by rw [hupd]; rfl,
    by rw [hupd]; rfl⟩
  · show jsOr a.currentPeriodEnd (jsOr ex.currentPeriodEnd 0) = _
    rw [jsOr_zero]
    rfl
  · intro k2 hk2
    rw [hupd]
    exact setLicense_ne _ _ _ _ hk2

/-- Witness for `ensureLicense_update_frame`: a second call with a new
status and a zero period end keeps key, email, binding and the previous
period end. -/
theorem ensureLicense_update_frame_witness :
    (ensureLicense ⟨"cus", "x", "p1", "past_due", 0, "LIC-B", 9⟩
        ((ensureLicense ⟨"cus", "e", "p1", "active", 111, "LIC-A", 5⟩
          emptyStore).2)).1 = (false, "LIC-A") :=
  (ensureLicense_update_frame ⟨"cus", "x", "p1", "past_due", 0, "LIC-B", 9⟩
    ((ensureLicense ⟨"cus", "e", "p1", "active", 111, "LIC-A", 5⟩
      emptyStore).2)
    ⟨"LIC-A", "cus", "p1", "e", "active", 111, "", 1, 5⟩
    (by decide) (by decide)).1

/-- C9 evidence: in the gateway webhook (and likewise the license-email
`stripe-webhook.js` variant) the `await resend.emails.send(...)` is not
wrapped in any try/catch, so when the email sender fails on a
signature-verified `checkout.session.completed` event the request does
not answer `{received:true}`; only the token-email variant, whose email
block sits in a try/catch, still answers `{received:true}`. -/
theorem webhook_email_failure :
    (handleStripeWebhook true
        ⟨"checkout.session.completed", "cus", "buyer@x", "p1", "payment",
          false, 0, "", "sess"⟩ true true "LIC-A" "tok" 7 emptyStore).1 =
      .uncaught "resend.emails.send"
    ∧ (handleStripeWebhook true
        ⟨"checkout.session.completed", "cus", "buyer@x", "p1", "payment",
          false, 0, "", "sess"⟩ true true "LIC-A" "tok" 7 emptyStore).1 ≠
      .received
    ∧ handleStripeWebhookTokenEmail true
        ⟨"checkout.session.completed", "cus", "buyer@x", "p1", "payment",
          false, 0, "", "sess"⟩ true = .received := by
  refine ⟨by decide, by decide, rfl⟩

/-- C10: `getLicenseByKey` resolves the record at
`license:(index.customerId):(caller productId)`, ignoring the product id
stored in the index entry; concretely, after one customer obtains
licenses for products `pA` and `pB`, presenting the `pA` key with
product id `pB` returns the product-B record — whose own `licenseKey`
differs from the presented key — and a verify call then binds and
evaluates that product-B record. -/
theorem getLicenseByKey_crossProduct :
    (∀ (σ : Store) (lk pid : String) (e : IndexEntry),
      σ.index lk = some e →
      getLicenseByKey lk pid σ = σ.licenses (e.customerId, pid))
    ∧ getLicenseByKey "LIC-A" "pB"
        ((ensureResults [⟨"cus", "", "pA", "active", 0, "LIC-A", 5⟩,
          ⟨"cus", "", "pB", "active", 0, "LIC-B", 6⟩] emptyStore).2) =
      some ⟨"LIC-B", "cus", "pB", "", "active", 0, "", 1, 6⟩
    ∧ (actionVerify "LIC-A" "dev-1" "pB" 9
        ((ensureResults [⟨"cus", "", "pA", "active", 0, "LIC-A", 5⟩,
          ⟨"cus", "", "pB", "active", 0, "LIC-B", 6⟩] emptyStore).2)).1 =
      .ok true "active" 0
    ∧ ((actionVerify "LIC-A" "dev-1" "pB" 9
        ((ensureResults [⟨"cus", "", "pA", "active", 0, "LIC-A", 5⟩,
          ⟨"cus", "", "pB", "active", 0, "LIC-B", 6⟩] emptyStore).2)).2).licenses
        ("cus", "pB") =
      some ⟨"LIC-B", "cus", "pB", "", "active", 0, "dev-1", 1, 9⟩ := by
  refine ⟨?_, by decide, by decide, by decide⟩
  intro σ lk pid e he
  simp [getLicenseByKey, he]

/-- Witness for `getLicenseByKey_crossProduct`: the resolution equation
at a concrete one-entry index. -/
theorem getLicenseByKey_crossProduct_witness :
    getLicenseByKey "LIC-A" "pB"
        (setIdx emptyStore "LIC-A" ⟨"cus", "pA"⟩) =
      (setIdx emptyStore "LIC-A" ⟨"cus", "pA"⟩).licenses ("cus", "pB") :=
  getLicenseByKey_crossProduct.1 (setIdx emptyStore "LIC-A" ⟨"cus", "pA"⟩)
    "LIC-A" "pB" ⟨"cus", "pA"⟩ (by decide)

end TrueTrend
